import Mathlib

/-!
Verification development for the Cornell research-agent scraping pipeline.

The Python source is embedded shallowly: pure string manipulation is
translated to executable functions over `List Char` (Python string
builtins such as `str.replace`, `str.split`, `str.rstrip` and `str.strip`
are reimplemented with their exact semantics, structurally recursive so
that the kernel can evaluate them); SQLite tables are modelled as lists
of rows with the upsert clauses translated literally; network and LLM
effects are modelled as explicit oracle functions passed to the embedded
code, so every claim is quantified over all behaviours of the outside
world.
-/

/-! ## Python string primitives -/

/-- Boolean test that the first list is a leading segment of the second,
mirroring the Python behaviour of `str.startswith`. -/
def startsWithChars : List Char → List Char → Bool
  | [], _ => true
  | _ :: _, [] => false
  | p :: ps, c :: cs => p == c && startsWithChars ps cs

/-- Boolean substring test, mirroring the Python `in` operator on strings. -/
def charsInfix (pat : List Char) : List Char → Bool
  | [] => pat.isEmpty
  | c :: cs => startsWithChars pat (c :: cs) || charsInfix pat cs

/-- Fuelled left-to-right non-overlapping replacement of `pat` by `rep`,
the semantics of Python `str.replace` for a non-empty pattern.  The fuel
is the length of the subject string, which is always sufficient. -/
def replaceCharsGo (pat rep : List Char) : Nat → List Char → List Char
  | 0, s => s
  | _ + 1, [] => []
  | fuel + 1, c :: cs =>
    if startsWithChars pat (c :: cs) then
      rep ++ replaceCharsGo pat rep fuel (cs.drop (pat.length - 1))
    else c :: replaceCharsGo pat rep fuel cs

/-- Python `s.replace(pat, rep)`.  The source never calls `replace` with an
empty pattern, and in that unused case we return the string unchanged. -/
def pyReplace (s pat rep : String) : String :=
  if pat.data.isEmpty then s else ⟨replaceCharsGo pat.data rep.data s.data.length s.data⟩

/-- Python `s.lower()`, restricted to ASCII case mapping, which is all the
source ever feeds it. -/
def pyLower (s : String) : String := ⟨s.data.map Char.toLower⟩

/-- Python `s.strip()`: remove leading and trailing whitespace. -/
def pyStrip (s : String) : String :=
  ⟨((s.data.dropWhile Char.isWhitespace).reverse.dropWhile Char.isWhitespace).reverse⟩

/-- Python `s.rstrip("/")`: remove trailing slash characters. -/
def pyRstripSlash (s : String) : String :=
  ⟨(s.data.reverse.dropWhile (fun c => c == '/')).reverse⟩

/-- Helper for `pySplitSlash`: accumulate the current (reversed) token. -/
def splitSlashGo : List Char → List Char → List String
  | acc, [] => [⟨acc.reverse⟩]
  | acc, c :: cs =>
    if c == '/' then ⟨acc.reverse⟩ :: splitSlashGo [] cs
    else splitSlashGo (c :: acc) cs

/-- Python `s.split("/")`: split on every slash, keeping empty fields. -/
def pySplitSlash (s : String) : List String := splitSlashGo [] s.data

/-- Helper for `pySplitWhitespace`: accumulate the current (reversed) token. -/
def splitWsGo : List Char → List Char → List String
  | acc, [] => if acc.isEmpty then [] else [⟨acc.reverse⟩]
  | acc, c :: cs =>
    if c.isWhitespace then
      if acc.isEmpty then splitWsGo [] cs else ⟨acc.reverse⟩ :: splitWsGo [] cs
    else splitWsGo (c :: acc) cs

/-- Python `s.split()` with no argument: split on whitespace runs and drop
empty tokens. -/
def pySplitWhitespace (s : String) : List String := splitWsGo [] s.data

/-- Python `pat in s` for strings. -/
def strContains (s pat : String) : Bool := charsInfix pat.data s.data

/-- Python `s.startswith(pat)`. -/
def strStartsWith (s pat : String) : Bool := startsWithChars pat.data s.data

/-! ## Faculty persistence (src/scraper/sources/data/faculty_db.py)

The `faculty` table is modelled as a list of rows; `name` is the unique
key.  Timestamps are abstracted to natural numbers. -/

/-- One row of the `faculty` table (the autoincrement id and `created_at`
column play no role in any claim and are omitted). -/
structure FacultyRow where
  name : String
  website_url : Option String
  email : Option String
  department : Option String
  profile_url : Option String
  updated_at : Nat
deriving DecidableEq

/-- The dict shape produced by the scraper and consumed by
`store_faculty` (keys name, website, email, department, profile_url). -/
structure FacultyDict where
  name : String
  website : Option String
  email : Option String
  department : Option String
  profile_url : Option String
deriving DecidableEq

/-- SQL `COALESCE(excluded.x, faculty.x)`: the incoming value when it is
non-null, otherwise the stored one. -/
def coalesce {α : Type} : Option α → Option α → Option α
  | some v, _ => some v
  | none, y => y

/-- The `ON CONFLICT(name) DO UPDATE` row produced for an existing row
`r` when dict `f` is stored at time `now`. -/
def facultyMergeRow (now : Nat) (f : FacultyDict) (r : FacultyRow) : FacultyRow :=
  { name := r.name
    website_url := coalesce f.website r.website_url
    email := coalesce f.email r.email
    department := coalesce f.department r.department
    profile_url := coalesce f.profile_url r.profile_url
    updated_at := now }

/-- One execution of the INSERT ... ON CONFLICT statement in
`store_faculty`. -/
def facultyUpsert (now : Nat) (db : List FacultyRow) (f : FacultyDict) : List FacultyRow :=
  if db.any (fun r => r.name == f.name) then
    db.map (fun r => if r.name == f.name then facultyMergeRow now f r else r)
  else
    db ++ [⟨f.name, f.website, f.email, f.department, f.profile_url, now⟩]

/-- `store_faculty`: iterate the upsert over the incoming list. -/
def store_faculty (db : List FacultyRow) (faculty_list : List FacultyDict) (now : Nat) :
    List FacultyRow :=
  faculty_list.foldl (facultyUpsert now) db

/-- Lookup a faculty row by its unique name (the WHERE clause of
`get_faculty_by_name`). -/
def findFaculty (db : List FacultyRow) (n : String) : Option FacultyRow :=
  db.find? (fun r => r.name == n)

/-- Property packaging the coalesce behaviour for one optional column:
a null incoming value leaves the stored value untouched and a non-null
incoming value overwrites it. -/
def neverClears (incoming stored updated : Option String) : Prop :=
  (incoming = none → updated = stored) ∧ (∀ v, incoming = some v → updated = some v)

/-! ## Publications persistence (src/scraper/sources/data/publications_db.py) -/

/-- One row of the `publications` table.  `fetched_at` is abstracted to a
natural number (the source stores an ISO timestamp string whose ordering
agrees with time). -/
structure PubRow where
  paper_id : String
  title : String
  abstract : Option String
  citation_count : Int
  year : Option Int
  venue : Option String
  url : Option String
  professor_name : String
  author_id : String
  fetched_at : Nat
deriving DecidableEq

/-- The natural-key test `paper_id = ? AND professor_name = ?`. -/
def pubKeyMatches (pid prof : String) (r : PubRow) : Bool :=
  r.paper_id == pid && r.professor_name == prof

/-- The `ON CONFLICT(paper_id, professor_name) DO UPDATE` row: every
column is taken from the excluded (incoming) row except the key columns
and `author_id`, which the SET clause does not mention. -/
def pubMergeRow (p r : PubRow) : PubRow :=
  { r with
    title := p.title
    abstract := p.abstract
    citation_count := p.citation_count
    year := p.year
    venue := p.venue
    url := p.url
    fetched_at := p.fetched_at }

/-- One execution of the INSERT ... ON CONFLICT statement in
`store_publications`. -/
def pubUpsert (db : List PubRow) (p : PubRow) : List PubRow :=
  if db.any (pubKeyMatches p.paper_id p.professor_name) then
    db.map (fun r => if pubKeyMatches p.paper_id p.professor_name r then pubMergeRow p r else r)
  else
    db ++ [p]

/-- `store_publications`: iterate the upsert over the incoming list. -/
def store_publications (db : List PubRow) (publications : List PubRow) : List PubRow :=
  publications.foldl pubUpsert db

/-- The ORDER BY key of `get_publications_for_professor`: row `a` comes
no later than row `b` when its citation count is no smaller. -/
def citationGe (a b : PubRow) : Prop := b.citation_count ≤ a.citation_count

instance : DecidableRel citationGe := fun a b =>
  inferInstanceAs (Decidable (b.citation_count ≤ a.citation_count))

instance : IsTotal PubRow citationGe :=
  ⟨fun a b => (le_total b.citation_count a.citation_count).elim Or.inl Or.inr⟩

instance : IsTrans PubRow citationGe :=
  ⟨fun _ _ _ h1 h2 => le_trans h2 h1⟩

/-- `get_publications_for_professor`: the WHERE clause keeps the rows of
the professor and ORDER BY citation_count DESC sorts them.  SQLite does
not specify the relative order of equal citation counts; a stable sort
is one admissible reading, and the theorems below only use facts that
hold for every admissible order (sortedness and multiset equality). -/
def get_publications_for_professor (db : List PubRow) (professor_name : String) : List PubRow :=
  List.insertionSort citationGe (db.filter (fun r => r.professor_name == professor_name))

/-- Natural key of a publication row. -/
def pubKey (p : PubRow) : String × String := (p.paper_id, p.professor_name)

/-! ## Directory parser (src/scraper/sources/faculty_scraper.py)

BeautifulSoup queries are abstracted into a `Document` value recording,
in document order, the results of the two selections the parser makes:
the `div.views-row` cards and the anchors with an href attribute.  The
traversal, filtering, URL joining and dedup logic is translated
literally. -/

/-- The anchor selected inside a name div: its stripped text and the
value of its href attribute, when present. -/
structure NameAnchor where
  text : String
  href : Option String
deriving DecidableEq

/-- The `div.email` of a card: the href of a contained mailto anchor when
one exists, and the stripped text of the div. -/
structure EmailDiv where
  mailtoHref : Option String
  text : String
deriving DecidableEq

/-- One `div.views-row` card: the name div (stripped text plus optional
inner anchor), the optional email div and the stripped text of an
optional `div.department`. -/
structure CardRow where
  nameDiv : Option (String × Option NameAnchor)
  emailDiv : Option EmailDiv
  deptText : Option String
deriving DecidableEq

/-- One anchor from `find_all("a", href=True)`: href value, stripped
text, and the href of a mailto anchor found in its nearest block
ancestor, when both exist. -/
structure ProfileLink where
  href : String
  text : String
  parentMailto : Option String
deriving DecidableEq

/-- The two element selections a directory page gives the parser. -/
structure Document where
  rows : List CardRow
  links : List ProfileLink
deriving DecidableEq

/-- The candidate record built by the parser. -/
structure FacultyCandidate where
  name : String
  department : Option String
  email : Option String
  profile_url : Option String
  website : Option String
deriving DecidableEq

/-- `extract_email`: prefer a mailto link, else apply the obfuscation
substitutions to the div text and keep the result only if an @ remains. -/
def normalizeEmailText (t : String) : String :=
  pyReplace (pyReplace (pyReplace (pyReplace t " [at] " "@") "[at]" "@") " [dot] " ".") "[dot]" "."

def extract_email (emailDiv : Option EmailDiv) : Option String :=
  match emailDiv with
  | none => none
  | some d =>
    match d.mailtoHref with
    | some h => some (pyReplace h "mailto:" "")
    | none =>
      let t := normalizeEmailText d.text
      if t.data.contains '@' then some t else none

/-- `extract_department_from_url`: fixed hostname lookup. -/
def extract_department_from_url (url : String) : Option String :=
  if url = "" then none
  else if strContains url "duffield.cornell.edu" then some "Engineering (Duffield)"
  else if strContains url "cs.cornell.edu" then some "Computer Science"
  else if strContains url "engineering.cornell.edu" then some "Engineering"
  else if strContains url "ece.cornell.edu" then some "Electrical and Computer Engineering"
  else if strContains url "mae.cornell.edu" then some "Mechanical and Aerospace Engineering"
  else none

/-- The stop list of `is_likely_name`. -/
def skipWords : List String :=
  ["people", "faculty", "staff", "home", "about", "contact", "research",
   "publications", "news", "events", "directory", "search", "menu",
   "skip to", "main content", "navigation", "read more", "view profile"]

/-- `is_likely_name`.  The Python ratio test `alpha_count / len(text) < 0.8`
is computed here as `5 * alpha_count < 4 * len`; for the lengths admitted
by the earlier guard (between 3 and 50) the float division is far enough
from 0.8 that the two tests agree exactly. -/
def is_likely_name (text : String) : Bool :=
  if text.data.isEmpty || text.data.length < 3 || text.data.length > 50 then false
  else if skipWords.contains (pyLower text) then false
  else if (pySplitWhitespace text).length < 2 then false
  else if 5 * (text.data.filter (fun c => c.isAlpha || c.isWhitespace)).length
        < 4 * text.data.length then false
  else true

/-- Strategy 1 (CS-style card): the candidate a `div.views-row` yields
before the dedup check, or `none` when any of the guards in the source
skips the row (missing name div, empty name, missing or falsy href).
The department defaulting from the URL is independent of the dedup state
and is applied here. -/
def strategy1Candidate (base_url : String) (row : CardRow) : Option FacultyCandidate :=
  match row.nameDiv with
  | none => none
  | some (divText, nameLink) =>
    let name := match nameLink with
      | some l => l.text
      | none => divText
    if name = "" then none
    else
      match nameLink with
      | none => none
      | some l =>
        match l.href with
        | none => none
        | some h =>
          if h = "" then none
          else
            let u := if strStartsWith h "http" then h else base_url ++ h
            let dept := match row.deptText with
              | some d => some d
              | none => none
            let dept := if dept.getD "" = "" then extract_department_from_url u else dept
            some ⟨name, dept, extract_email row.emailDiv, some u, none⟩

/-- Strategy 2 (profile-shaped links): the candidate an anchor yields
before the dedup check, or `none` when a guard skips it. -/
def strategy2Candidate (base_url : String) (link : ProfileLink) : Option FacultyCandidate :=
  if !strContains link.href "/people/" then none
  else if (pySplitSlash (pyRstripSlash link.href)).length < 2
      || (pySplitSlash (pyRstripSlash link.href)).getLastD "" == "people" then none
  else if !is_likely_name link.text then none
  else
      let u := if strStartsWith link.href "http" then link.href else base_url ++ link.href
      some ⟨link.text, extract_department_from_url u,
            link.parentMailto.map (fun h => pyReplace h "mailto:" ""), some u, none⟩

/-- The running state of the parser: the `seen_urls` set and the
accumulated `faculty_list`. -/
structure ParseState where
  seen : List String
  out : List FacultyCandidate
deriving DecidableEq

/-- The shared tail of both strategies: if a candidate was produced and
its profile URL is new, record the URL and append the candidate. -/
def dedupStep (st : ParseState) (cand : Option FacultyCandidate) : ParseState :=
  match cand with
  | none => st
  | some c =>
    match c.profile_url with
    | none => st
    | some u => if u ∈ st.seen then st else ⟨u :: st.seen, st.out ++ [c]⟩

/-- `parse_faculty_generic`: run strategy 1 over all cards and then
strategy 2 over all anchors, threading one `seen_urls` set. -/
def parse_faculty_generic (doc : Document) (base_url : String) : List FacultyCandidate :=
  let st1 := doc.rows.foldl (fun st row => dedupStep st (strategy1Candidate base_url row)) ⟨[], []⟩
  let st2 := doc.links.foldl (fun st l => dedupStep st (strategy2Candidate base_url l)) st1
  st2.out

/-- Shape of every URL the parser records: taken verbatim when it starts
with http, otherwise joined onto the base URL. -/
def urlShaped (base_url : String) (c : FacultyCandidate) : Prop :=
  ∃ u, c.profile_url = some u ∧ (strStartsWith u "http" = true ∨ ∃ h, u = base_url ++ h)

/-- Invariant maintained by the parser state: every accumulated candidate
carries a recorded, shape-correct URL, and no URL is accumulated twice. -/
def parseInv (base_url : String) (st : ParseState) : Prop :=
  (∀ c ∈ st.out, ∃ u, c.profile_url = some u ∧ u ∈ st.seen ∧
      (strStartsWith u "http" = true ∨ ∃ h, u = base_url ++ h)) ∧
  (st.out.map (fun c => c.profile_url)).Nodup

/-! ## Paginator (extract_all_pages in faculty_scraper.py)

The network is an oracle from URL to page body; `extract_faculty_html`
returns the body, or the empty string on a request exception, so an
empty body is the no-content case.  The two BeautifulSoup content checks
on a fetched page are read off a `Document` produced by a second oracle. -/

/-- `soup.select("div.views-row")` is non-empty. -/
def hasFacultyRows (doc : Document) : Bool := !doc.rows.isEmpty

/-- Some anchor has a truthy href containing "/people/". -/
def hasProfileLinks (doc : Document) : Bool :=
  doc.links.any (fun l => !l.href.data.isEmpty && strContains l.href "/people/")

/-- The pagination loop: fuel counts the page numbers still below the
ceiling of 20, starting from page 1. -/
def extractPagesGo (fetchPage : String → String) (parseDoc : String → Document)
    (base_url : String) : Nat → Nat → List String
  | 0, _ => []
  | fuel + 1, page_num =>
    let html := fetchPage (base_url ++ "?page=" ++ toString page_num)
    if html = "" then []
    else
      let doc := parseDoc html
      if !hasFacultyRows doc && !hasProfileLinks doc then []
      else html :: extractPagesGo fetchPage parseDoc base_url fuel (page_num + 1)

/-- `extract_all_pages`: fetch the base page, then pages 1 to 20. -/
def extract_all_pages (fetchPage : String → String) (parseDoc : String → Document)
    (base_url : String) : List String :=
  let html := fetchPage base_url
  if html = "" then []
  else html :: extractPagesGo fetchPage parseDoc base_url 20 1

/-! ## HTML fetcher (HTMLFetcher.fetch in src/scraper/sources/lab_pages.py)

One attempt of `self.session.get` either returns text or raises one of
the three exception classes the code distinguishes; an oracle gives the
outcome of each attempt. -/

/-- Outcome of one HTTP attempt. -/
inductive AttemptOutcome where
  | success (text : String)
  | timeoutErr
  | httpError (status : Nat)
  | reqError (msg : String)
deriving DecidableEq

/-- The classification message the except clauses assign to a failed
attempt, or an early return for success. -/
def attemptStep (timeout : Nat) (o : AttemptOutcome) :
    Sum (Option String × Option String) String :=
  match o with
  | .success t => .inl (some t, none)
  | .timeoutErr => .inr ("Timeout after " ++ toString timeout ++ "s")
  | .httpError s =>
    if s = 404 || s = 403 || s = 410 then .inl (none, some ("HTTP " ++ toString s))
    else .inr ("HTTP " ++ toString s)
  | .reqError m => .inr m

/-- The retry loop of `HTMLFetcher.fetch`, also recording the sleeps
performed between attempts.  Fuel counts the remaining iterations of
`for attempt in range(max_retries)`; exhausting it returns
`(None, last_error)`. -/
def fetchGo (oracle : Nat → AttemptOutcome) (timeout max_retries : Nat) (retry_delay : ℚ) :
    Nat → Nat → Option String → (Option String × Option String) × List ℚ
  | 0, _, lastError => ((none, lastError), [])
  | fuel + 1, attempt, _ =>
    match attemptStep timeout (oracle attempt) with
    | .inl r => (r, [])
    | .inr le =>
      let rest := fetchGo oracle timeout max_retries retry_delay fuel (attempt + 1) (some le)
      if attempt < max_retries - 1 then (rest.1, retry_delay * ((attempt : ℚ) + 1) :: rest.2)
      else (rest.1, rest.2)

/-- `HTMLFetcher.fetch` with its configuration made explicit.  Returns
the `(content, error)` pair together with the list of sleeps taken. -/
def HTMLFetcher.fetch (oracle : Nat → AttemptOutcome) (timeout max_retries : Nat)
    (retry_delay : ℚ) : (Option String × Option String) × List ℚ :=
  fetchGo oracle timeout max_retries retry_delay max_retries 0 none

/-- An attempt outcome the loop retries after. -/
def isTransient : AttemptOutcome → Bool
  | .success _ => false
  | .timeoutErr => true
  | .httpError s => !(s = 404 || s = 403 || s = 410 : Bool)
  | .reqError _ => true

/-- The error message a non-success outcome contributes. -/
def attemptMessage (timeout : Nat) : AttemptOutcome → Option String
  | .success _ => none
  | .timeoutErr => some ("Timeout after " ++ toString timeout ++ "s")
  | .httpError s => some ("HTTP " ++ toString s)
  | .reqError m => some m

/-! ## Publications retry wrapper (fetch_with_retry in src/scripts/scrape_all.py)

`scrape_and_store_publications` is an oracle from attempt number to its
`(count, error)` result. -/

/-- The rate-limit classification: a truthy error whose lowercase form
contains "rate limit". -/
def isRateLimitError : Option String → Bool
  | none => false
  | some s => !s.data.isEmpty && charsInfix "rate limit".data (pyLower s).data

/-- The retry loop of `fetch_with_retry`, recording the sleeps taken.
Fuel counts the remaining iterations of `for attempt in range(max_retries + 1)`;
exhausting it reaches the return statement after the loop.  Because the
final iteration returns unconditionally when `attempt < max_retries`
fails, that statement is dead code, which the theorems below make
explicit. -/
def fetchWithRetryGo (call : Nat → Nat × Option String) (max_retries : Nat) :
    Nat → Nat → ℚ → (Nat × Option String) × List ℚ
  | 0, _, _ => ((0, some "Max retries exceeded due to rate limiting"), [])
  | fuel + 1, attempt, backoff =>
    if isRateLimitError (call attempt).2 = true ∧ attempt < max_retries then
      ((fetchWithRetryGo call max_retries fuel (attempt + 1) (backoff * 2)).1,
        backoff :: (fetchWithRetryGo call max_retries fuel (attempt + 1) (backoff * 2)).2)
    else ((call attempt), [])

/-- `fetch_with_retry` with the sleeps made observable. -/
def fetch_with_retry (call : Nat → Nat × Option String) (max_retries : Nat)
    (initial_backoff : ℚ) : (Nat × Option String) × List ℚ :=
  fetchWithRetryGo call max_retries (max_retries + 1) 0 initial_backoff

/-! ## LLM lab-page extractor (LabPageExtractor.extract in lab_pages.py) -/

/-- The pydantic result model, with its field defaults. -/
structure LabPageExtractionResult where
  research_summary : Option String := none
  research_areas : List String := []
  lab_url : Option String := none
  publications_url : Option String := none
  personal_site_url : Option String := none
  source_url : String
  extraction_successful : Bool := true
  error_message : Option String := none
deriving DecidableEq

/-- The fields read off the JSON dict the LLM returns (via `data.get`). -/
structure ExtractedData where
  research_summary : Option String
  research_areas : List String
  lab_url : Option String
  publications_url : Option String
  personal_site_url : Option String
deriving DecidableEq

/-- Outcome of the LLM call: a parsed dict, a JSONDecodeError with its
message, or any other exception with its class name and message. -/
inductive LLMOutcome where
  | ok (data : ExtractedData)
  | jsonError (msg : String)
  | exn (ename emsg : String)
deriving DecidableEq

/-- `_resolve_urls` on one field: a truthy URL that does not already
start with an http or https scheme is joined onto the base URL. -/
def resolveUrl (ujoin : String → String → String) (base_url : String) :
    Option String → Option String
  | none => none
  | some u =>
    if u = "" then some u
    else if strStartsWith u "http://" || strStartsWith u "https://" then some u
    else some (ujoin base_url u)

/-- `_resolve_urls` over the three URL fields. -/
def resolveUrls (ujoin : String → String → String) (data : ExtractedData)
    (base_url : String) : ExtractedData :=
  { data with
    lab_url := resolveUrl ujoin base_url data.lab_url
    publications_url := resolveUrl ujoin base_url data.publications_url
    personal_site_url := resolveUrl ujoin base_url data.personal_site_url }

/-- The extractor with its effectful collaborators as oracles:
`fetchResult` is the `(html, error)` protocol of `HTMLFetcher.fetch`
(either text or an error reason), `clean` is `clean_html_for_llm`,
`llm` is the structured-extraction call on the cleaned content, and
`ujoin` is `urllib.parse.urljoin`. -/
structure LabPageExtractor where
  fetchResult : String → Except String String
  clean : String → String
  llm : String → LLMOutcome
  ujoin : String → String → String

/-- `LabPageExtractor.extract`, translated clause by clause. -/
def LabPageExtractor.extract (ex : LabPageExtractor) (url : String) : LabPageExtractionResult :=
  match ex.fetchResult url with
  | .error e =>
    { source_url := url
      extraction_successful := false
      error_message := some ("Failed to fetch page: " ++ e) }
  | .ok html =>
    let cleaned := ex.clean html
    if pyStrip cleaned = "" then
      { source_url := url
        extraction_successful := true
        error_message := some "Page content was empty after cleaning" }
    else
      match ex.llm cleaned with
      | .ok data =>
        let data := resolveUrls ex.ujoin data url
        { research_summary := data.research_summary
          research_areas := data.research_areas
          lab_url := data.lab_url
          publications_url := data.publications_url
          personal_site_url := data.personal_site_url
          source_url := url
          extraction_successful := true }
      | .jsonError m =>
        { source_url := url
          extraction_successful := false
          error_message := some ("Failed to parse LLM response as JSON: " ++ m) }
      | .exn ename emsg =>
        { source_url := url
          extraction_successful := false
          error_message := some ("LLM extraction failed: " ++ ename ++ ": " ++ emsg) }

/-- All optional content fields of a result are unset. -/
def contentFieldsUnset (r : LabPageExtractionResult) : Prop :=
  r.research_summary = none ∧ r.research_areas = [] ∧ r.lab_url = none ∧
  r.publications_url = none ∧ r.personal_site_url = none

/-! ## Helper lemmas -/

theorem find?_map_name (db : List FacultyRow) (n : String) (g : FacultyRow → FacultyRow)
    (hg : ∀ r, (g r).name = r.name) :
    (db.map g).find? (fun r => r.name == n) = (db.find? (fun r => r.name == n)).map g := by
  induction db with
  | nil => rfl
  | cons a l ih =>
    by_cases h : (a.name == n) = true
    · rw [List.map_cons,
        @List.find?_cons_of_pos _ (fun r => r.name == n) (g a) (List.map g l)
          (show ((g a).name == n) = true by rw [hg a]; exact h),
        @List.find?_cons_of_pos _ (fun r => r.name == n) a l h, Option.map_some']
    · rw [List.map_cons,
        @List.find?_cons_of_neg _ (fun r => r.name == n) (g a) (List.map g l)
          (show ¬((g a).name == n) = true by rw [hg a]; exact h),
        @List.find?_cons_of_neg _ (fun r => r.name == n) a l h, ih]

/-- C1: coalesce-on-conflict faculty storage.  Storing a dict whose name
already has a row merges field-wise: a non-null incoming value
overwrites the stored one and a null incoming value leaves it untouched,
so a previously known non-null field is never cleared; and the concrete
two-write example from the specification produces a row holding both the
first write's website and the second write's email. -/
theorem store_faculty_coalesce_on_conflict :
    (∀ (db : List FacultyRow) (f : FacultyDict) (now : Nat) (old : FacultyRow),
      findFaculty db f.name = some old →
      ∃ updated, findFaculty (store_faculty db [f] now) f.name = some updated ∧
        neverClears f.website old.website_url updated.website_url ∧
        neverClears f.email old.email updated.email ∧
        neverClears f.department old.department updated.department ∧
        neverClears f.profile_url old.profile_url updated.profile_url) ∧
    findFaculty (store_faculty []
        [⟨"A", some "w1", none, none, none⟩, ⟨"A", none, some "e1", none, none⟩] 7) "A"
      = some ⟨"A", some "w1", some "e1", none, none, 7⟩ := by
  constructor
  · intro db f now old hfind
    rw [findFaculty] at hfind
    have hmem : old ∈ db := List.mem_of_find?_eq_some hfind
    have hp : (old.name == f.name) = true :=
      @List.find?_some _ (fun r => r.name == f.name) old db hfind
    have hany : db.any (fun r => r.name == f.name) = true :=
      List.any_eq_true.mpr ⟨old, hmem, hp⟩
    have hstep : store_faculty db [f] now = facultyUpsert now db f := rfl
    rw [hstep, facultyUpsert, if_pos hany]
    have hg : ∀ r, ((fun r => if r.name == f.name then facultyMergeRow now f r else r) r).name
        = r.name := by
      intro r; by_cases h : (r.name == f.name) = true
      · simp [h, facultyMergeRow]
      · simp [h]
    refine ⟨facultyMergeRow now f old, ?_, ?_, ?_, ?_, ?_⟩
    · rw [findFaculty, find?_map_name db f.name _ hg, hfind, Option.map_some', hp]
      simp
    · exact ⟨fun h => by simp [facultyMergeRow, h, coalesce],
        fun v h => by simp [facultyMergeRow, h, coalesce]⟩
    · exact ⟨fun h => by simp [facultyMergeRow, h, coalesce],
        fun v h => by simp [facultyMergeRow, h, coalesce]⟩
    · exact ⟨fun h => by simp [facultyMergeRow, h, coalesce],
        fun v h => by simp [facultyMergeRow, h, coalesce]⟩
    · exact ⟨fun h => by simp [facultyMergeRow, h, coalesce],
        fun v h => by simp [facultyMergeRow, h, coalesce]⟩
  · decide

/-- Witness for C1 at a concrete database and write. -/
theorem store_faculty_coalesce_on_conflict_witness :
    ∃ updated, findFaculty (store_faculty [⟨"A", some "w", none, none, none, 0⟩]
        [⟨"A", none, some "e", none, none⟩] 1) "A" = some updated ∧
      neverClears none (some "w") updated.website_url ∧
      neverClears (some "e") none updated.email ∧
      neverClears none none updated.department ∧
      neverClears none none updated.profile_url :=
  store_faculty_coalesce_on_conflict.1 [⟨"A", some "w", none, none, none, 0⟩]
    ⟨"A", none, some "e", none, none⟩ 1 ⟨"A", some "w", none, none, none, 0⟩ (by decide)

/-- C2: LLM-extractor error semantics.  A fetch failure yields an
unsuccessful result with an error message and no content fields; a
successful fetch whose cleaned content strips to empty yields a
successful result with a descriptive message and no content fields; and
in every result an unsuccessful flag implies all content fields are
unset. -/
theorem labpage_extract_error_semantics :
    ∀ (ex : LabPageExtractor) (url : String),
      (∀ e, ex.fetchResult url = Except.error e →
          (ex.extract url).extraction_successful = false ∧
          (ex.extract url).error_message = some ("Failed to fetch page: " ++ e) ∧
          contentFieldsUnset (ex.extract url)) ∧
      (∀ html, ex.fetchResult url = Except.ok html → pyStrip (ex.clean html) = "" →
          (ex.extract url).extraction_successful = true ∧
          (ex.extract url).error_message = some "Page content was empty after cleaning" ∧
          contentFieldsUnset (ex.extract url)) ∧
      ((ex.extract url).extraction_successful = false → contentFieldsUnset (ex.extract url)) := by
  intro ex url
  refine ⟨?_, ?_, ?_⟩
  · intro e he
    simp [LabPageExtractor.extract, he, contentFieldsUnset]
  · intro html hh hs
    simp [LabPageExtractor.extract, hh, hs, contentFieldsUnset]
  · cases hf : ex.fetchResult url with
    | error e => simp [LabPageExtractor.extract, hf, contentFieldsUnset]
    | ok html =>
      by_cases hs : pyStrip (ex.clean html) = ""
      · simp [LabPageExtractor.extract, hf, hs, contentFieldsUnset]
      · cases hl : ex.llm (ex.clean html) with
        | ok d => simp [LabPageExtractor.extract, hf, hs, hl]
        | jsonError m => simp [LabPageExtractor.extract, hf, hs, hl, contentFieldsUnset]
        | exn a b => simp [LabPageExtractor.extract, hf, hs, hl, contentFieldsUnset]

/-- Witness for C2: a failing fetch and an empty-content fetch at
concrete oracles. -/
theorem labpage_extract_error_semantics_witness :
    (((LabPageExtractor.mk (fun _ => Except.error "boom") (fun _ => "x")
        (fun _ => LLMOutcome.jsonError "bad") (fun _ u => u)).extract "u").extraction_successful
        = false ∧
      ((LabPageExtractor.mk (fun _ => Except.error "boom") (fun _ => "x")
        (fun _ => LLMOutcome.jsonError "bad") (fun _ u => u)).extract "u").error_message
        = some ("Failed to fetch page: " ++ "boom") ∧
      contentFieldsUnset ((LabPageExtractor.mk (fun _ => Except.error "boom") (fun _ => "x")
        (fun _ => LLMOutcome.jsonError "bad") (fun _ u => u)).extract "u")) ∧
    (((LabPageExtractor.mk (fun _ => Except.ok "<html></html>") (fun _ => "  ")
        (fun _ => LLMOutcome.jsonError "bad") (fun _ u => u)).extract "u").extraction_successful
        = true ∧
      ((LabPageExtractor.mk (fun _ => Except.ok "<html></html>") (fun _ => "  ")
        (fun _ => LLMOutcome.jsonError "bad") (fun _ u => u)).extract "u").error_message
        = some "Page content was empty after cleaning" ∧
      contentFieldsUnset ((LabPageExtractor.mk (fun _ => Except.ok "<html></html>")
        (fun _ => "  ") (fun _ => LLMOutcome.jsonError "bad") (fun _ u => u)).extract "u")) :=
  ⟨(labpage_extract_error_semantics (LabPageExtractor.mk (fun _ => Except.error "boom")
        (fun _ => "x") (fun _ => LLMOutcome.jsonError "bad") (fun _ u => u)) "u").1 "boom" rfl,
   (labpage_extract_error_semantics (LabPageExtractor.mk (fun _ => Except.ok "<html></html>")
        (fun _ => "  ") (fun _ => LLMOutcome.jsonError "bad") (fun _ u => u)) "u").2.1
      "<html></html>" rfl (by decide)⟩

theorem attemptStep_of_transient (timeout : Nat) (o : AttemptOutcome)
    (h : isTransient o = true) :
    ∃ m, attemptStep timeout o = Sum.inr m ∧ attemptMessage timeout o = some m := by
  cases o with
  | success t => simp [isTransient] at h
  | timeoutErr => exact ⟨_, rfl, rfl⟩
  | httpError s =>
    have hs : (s = 404 || s = 403 || s = 410 : Bool) = false := by
      simpa [isTransient] using h
    exact ⟨"HTTP " ++ toString s, by simp [attemptStep, hs], by simp [attemptMessage]⟩
  | reqError m => exact ⟨_, rfl, rfl⟩

/-- C6: fetcher failure classification with the configured bound of 3
attempts.  A successful first attempt returns the text with a null
error and no sleeps; a permanent HTTP status (404, 403, 410) on the
first attempt is returned at once without any retry or sleep; and when
all 3 attempts fail transiently the fetcher sleeps `retry_delay * 1`
then `retry_delay * 2` between attempts and returns `(none, reason)`
where the reason is the classification message of the last attempt —
a string, never an exception value. -/
theorem htmlfetcher_fetch_classification :
    ∀ (oracle : Nat → AttemptOutcome) (timeout : Nat) (retry_delay : ℚ),
      (∀ t, oracle 0 = AttemptOutcome.success t →
          HTMLFetcher.fetch oracle timeout 3 retry_delay = ((some t, none), [])) ∧
      (∀ s, oracle 0 = AttemptOutcome.httpError s → (s = 404 ∨ s = 403 ∨ s = 410) →
          HTMLFetcher.fetch oracle timeout 3 retry_delay
            = ((none, some ("HTTP " ++ toString s)), [])) ∧
      ((∀ i, i < 3 → isTransient (oracle i) = true) →
          HTMLFetcher.fetch oracle timeout 3 retry_delay
            = ((none, attemptMessage timeout (oracle 2)),
               [retry_delay * 1, retry_delay * 2])) := by
  intro oracle timeout retry_delay
  refine ⟨?_, ?_, ?_⟩
  · intro t ht
    simp [HTMLFetcher.fetch, fetchGo, ht, attemptStep]
  · intro s hs hperm
    have hb : (s = 404 || s = 403 || s = 410 : Bool) = true := by
      rcases hperm with h | h | h <;> simp [h]
    simp [HTMLFetcher.fetch, fetchGo, hs, attemptStep, hb]
  · intro h
    obtain ⟨m0, h0, h0m⟩ := attemptStep_of_transient timeout (oracle 0) (h 0 (by norm_num))
    obtain ⟨m1, h1, h1m⟩ := attemptStep_of_transient timeout (oracle 1) (h 1 (by norm_num))
    obtain ⟨m2, h2, h2m⟩ := attemptStep_of_transient timeout (oracle 2) (h 2 (by norm_num))
    rw [h2m]
    simp only [HTMLFetcher.fetch, fetchGo, h0, h1, h2]
    norm_num

/-- Witness for C6: three straight HTTP 500 responses. -/
theorem htmlfetcher_fetch_classification_witness :
    HTMLFetcher.fetch (fun _ => AttemptOutcome.httpError 500) 30 3 1
      = ((none, attemptMessage 30 (AttemptOutcome.httpError 500)), [1 * 1, 1 * 2]) :=
  (htmlfetcher_fetch_classification (fun _ => AttemptOutcome.httpError 500) 30 1).2.2
    (by decide)

/-- C7: email normalization.  A mailto link is preferred and its address
returned; otherwise the four literal obfuscation substitutions are
applied to the card text and the result is kept exactly when an @ sign
remains; the concrete obfuscated address from the specification
normalizes as stated, and a text without an @ after substitution yields
none. -/
theorem extract_email_normalization :
    ∀ d : EmailDiv,
      (∀ h, d.mailtoHref = some h →
          extract_email (some d) = some (pyReplace h "mailto:" "")) ∧
      (d.mailtoHref = none → (normalizeEmailText d.text).data.contains '@' = true →
          extract_email (some d) = some (normalizeEmailText d.text)) ∧
      (d.mailtoHref = none → (normalizeEmailText d.text).data.contains '@' = false →
          extract_email (some d) = none) ∧
      normalizeEmailText "jdoe [at] cornell [dot] edu" = "jdoe@cornell.edu" ∧
      extract_email (some ⟨none, "office hours by appointment"⟩) = none := by
  intro d
  refine ⟨?_, ?_, ?_, by decide, by decide⟩
  · intro h hm
    simp [extract_email, hm]
  · intro hm hc
    simp only [extract_email, hm]
    rw [if_pos hc]
  · intro hm hc
    simp only [extract_email, hm]
    rw [if_neg (by rw [hc]; exact Bool.false_ne_true)]

/-- Witness for C7 at the specification's concrete card text. -/
theorem extract_email_normalization_witness :
    extract_email (some ⟨none, "jdoe [at] cornell [dot] edu"⟩)
      = some (normalizeEmailText "jdoe [at] cornell [dot] edu") :=
  (extract_email_normalization ⟨none, "jdoe [at] cornell [dot] edu"⟩).2.1 rfl (by decide)

/-- C4 (amended): exponential-backoff retry arithmetic of
`fetch_with_retry` at its default ceiling of 3 retries.  When the first
three attempts are rate-limited the wrapper sleeps the initial backoff,
then twice it, then four times it (total `initial + 2*initial +
4*initial`), and then returns whatever the fourth call yields — the
success result when that call succeeds, and the fourth rate-limit error
itself on exhaustion, the post-loop "Max retries exceeded due to rate
limiting" return being unreachable.  No exception propagates: the
wrapper is a total function into a result pair. -/
theorem fetch_with_retry_backoff :
    ∀ (call : Nat → Nat × Option String) (initial_backoff : ℚ),
      (∀ i, i < 3 → isRateLimitError (call i).2 = true) →
      fetch_with_retry call 3 initial_backoff
        = (call 3, [initial_backoff, initial_backoff * 2, initial_backoff * 2 * 2]) ∧
      (fetch_with_retry call 3 initial_backoff).2.sum
        = initial_backoff + 2 * initial_backoff + 4 * initial_backoff := by
  intro call b h
  have h0 := h 0 (by norm_num)
  have h1 := h 1 (by norm_num)
  have h2 := h 2 (by norm_num)
  have heq : fetch_with_retry call 3 b = (call 3, [b, b * 2, b * 2 * 2]) := by
    simp only [fetch_with_retry, fetchWithRetryGo]
    rw [if_pos ⟨h0, by norm_num⟩, if_pos ⟨h1, by norm_num⟩, if_pos ⟨h2, by norm_num⟩,
      if_neg (by norm_num)]
  exact ⟨heq, by rw [heq]; simp [List.sum_cons]; ring⟩

/-- Witness for C4 at three concrete rate limits and a success. -/
theorem fetch_with_retry_backoff_witness :
    fetch_with_retry (fun i => if i < 3 then (0, some "rate limit") else (5, none)) 3 60
      = ((5, none), [60, 60 * 2, 60 * 2 * 2]) := by
  have h := (fetch_with_retry_backoff
    (fun i => if i < 3 then (0, some "rate limit") else (5, none)) 60
    (by intro i hi; interval_cases i <;> decide)).1
  rw [h]
  norm_num

/-- Counterexample to C4 as stated: with 3 consecutive rate limits and
then a success, the total sleep is `7 * initial = 420`, not
`initial + 2*initial = 180`; and on exhaustion (every attempt rate
limited) the wrapper returns the last rate-limit error message, not a
"max retries exceeded" report. -/
theorem fetch_with_retry_cex :
    (fetch_with_retry (fun i => if i < 3 then (0, some "rate limit") else (5, none)) 3 60).2.sum
      = 420 ∧
    (420 : ℚ) ≠ 60 + 2 * 60 ∧
    (fetch_with_retry (fun _ => (0, some "rate limit")) 3 60).1 = (0, some "rate limit") ∧
    some "rate limit" ≠ some "Max retries exceeded due to rate limiting" := by
  have hrl : isRateLimitError (some "rate limit") = true := by decide
  refine ⟨?_, by norm_num, ?_, by decide⟩
  · norm_num [fetch_with_retry, fetchWithRetryGo, hrl]
  · norm_num [fetch_with_retry, fetchWithRetryGo, hrl]

theorem extractPagesGo_length_le (fetchPage : String → String) (parseDoc : String → Document)
    (base_url : String) :
    ∀ (fuel page_num : Nat),
      (extractPagesGo fetchPage parseDoc base_url fuel page_num).length ≤ fuel := by
  intro fuel
  induction fuel with
  | zero => intro page_num; simp [extractPagesGo]
  | succ n ih =>
    intro page_num
    simp only [extractPagesGo]
    split
    · simp
    · split
      · simp
      · simpa using Nat.succ_le_succ (ih (page_num + 1))

/-- C5 (amended): paginator bound and termination.  For every behaviour
of the fetch and of the page-content analysis the paginator is a total
function returning an ordered list of at most 21 page bodies (the base
page plus at most 20 numbered pages); it returns the empty list when
the base fetch yields no content — a valid, non-error result — and it
stops after the base page when page 1 yields no content markers. -/
theorem extract_all_pages_bound :
    ∀ (fetchPage : String → String) (parseDoc : String → Document) (base_url : String),
      (extract_all_pages fetchPage parseDoc base_url).length ≤ 21 ∧
      (fetchPage base_url = "" → extract_all_pages fetchPage parseDoc base_url = []) ∧
      (fetchPage base_url ≠ "" →
        fetchPage (base_url ++ "?page=" ++ toString 1) ≠ "" →
        hasFacultyRows (parseDoc (fetchPage (base_url ++ "?page=" ++ toString 1))) = false →
        hasProfileLinks (parseDoc (fetchPage (base_url ++ "?page=" ++ toString 1))) = false →
        extract_all_pages fetchPage parseDoc base_url = [fetchPage base_url]) := by
  intro fetchPage parseDoc base_url
  refine ⟨?_, ?_, ?_⟩
  · simp only [extract_all_pages]
    split
    · simp
    · simpa using Nat.succ_le_succ
        (extractPagesGo_length_le fetchPage parseDoc base_url 20 1)
  · intro h
    simp [extract_all_pages, h]
  · intro hbase hpage hrows hlinks
    rw [extract_all_pages, if_neg hbase, extractPagesGo, if_neg hpage,
      if_pos (by rw [hrows, hlinks]; rfl)]

/-- Witness for C5: a constant non-empty fetch with a contentless page 1
stops after the base page, and an empty base fetch yields zero pages. -/
theorem extract_all_pages_bound_witness :
    extract_all_pages (fun _ => "x") (fun _ => ⟨[], []⟩) "b" = [(fun (_ : String) => "x") "b"] ∧
    extract_all_pages (fun _ => "") (fun _ => ⟨[], []⟩) "b" = [] :=
  ⟨(extract_all_pages_bound (fun _ => "x") (fun _ => ⟨[], []⟩) "b").2.2
      (by decide) (by decide) (by decide) (by decide),
   (extract_all_pages_bound (fun _ => "") (fun _ => ⟨[], []⟩) "b").2.1 rfl⟩

/-- Counterexample to C5 as stated: when every fetched page reports
content, the paginator returns 21 page bodies (the base page plus the 20
numbered pages), exceeding the claimed bound of 20. -/
theorem extract_all_pages_cex :
    (extract_all_pages (fun _ => "x") (fun _ => ⟨[⟨none, none, none⟩], []⟩) "b").length = 21 ∧
    ¬ ((extract_all_pages (fun _ => "x")
        (fun _ => ⟨[⟨none, none, none⟩], []⟩) "b").length ≤ 20) := by
  constructor <;> decide

theorem any_false_append_find? {α : Type} (p : α → Bool) (l l' : List α)
    (h : l.any p = false) : (l ++ l').find? p = l'.find? p := by
  induction l with
  | nil => rfl
  | cons a t ih =>
    rw [List.any_cons, Bool.or_eq_false_iff] at h
    rw [List.cons_append, List.find?_cons_of_neg _ (by rw [h.1]; exact Bool.false_ne_true)]
    exact ih h.2

theorem map_unmatched {α : Type} (q : α → Bool) (f : α → α) (l : List α)
    (h : ∀ r ∈ l, q r = false) :
    l.map (fun r => if q r then f r else r) = l := by
  induction l with
  | nil => rfl
  | cons a t ih =>
    rw [List.map_cons, if_neg (by rw [h a (List.mem_cons_self a t)]; exact Bool.false_ne_true),
      ih fun r hr => h r (List.mem_cons_of_mem a hr)]

/-- C8 (amended): later fetch supersedes, except for author_id.  Storing
p1 and then p2 with the same natural key into a database not containing
that key leaves a row carrying p2's title, abstract, citation count,
year, venue, url and fetched_at; the author_id column is absent from the
conflict clause's SET list and keeps p1's value. -/
theorem store_publications_later_fetch :
    ∀ (db : List PubRow) (p1 p2 : PubRow),
      p1.paper_id = p2.paper_id → p1.professor_name = p2.professor_name →
      p1.fetched_at < p2.fetched_at →
      db.any (pubKeyMatches p1.paper_id p1.professor_name) = false →
      (store_publications (store_publications db [p1]) [p2]).find?
          (pubKeyMatches p1.paper_id p1.professor_name)
        = some { p2 with author_id := p1.author_id } := by
  intro db p1 p2 hpid hprof _ hfresh
  have hstep1 : store_publications db [p1] = pubUpsert db p1 := rfl
  have hins : pubUpsert db p1 = db ++ [p1] := by
    rw [pubUpsert, if_neg (by rw [hfresh]; exact Bool.false_ne_true)]
  have hkey : pubKeyMatches p2.paper_id p2.professor_name p1 = true := by
    simp [pubKeyMatches, hpid, hprof]
  have hany : (db ++ [p1]).any (pubKeyMatches p2.paper_id p2.professor_name) = true := by
    rw [List.any_append]
    simp [hkey]
  have hdb : ∀ r ∈ db, pubKeyMatches p2.paper_id p2.professor_name r = false := by
    intro r hr
    have := List.any_eq_false.mp (by rw [hpid, hprof] at hfresh; exact hfresh) r hr
    simpa using this
  have hstep2 : store_publications (db ++ [p1]) [p2] = pubUpsert (db ++ [p1]) p2 := rfl
  rw [hstep1, hins, hstep2, pubUpsert, if_pos hany, List.map_append,
    map_unmatched _ _ db hdb, List.map_cons, if_pos hkey, List.map_nil]
  rw [hpid, hprof, any_false_append_find? _ db _ (List.any_eq_false.mpr (by
    intro r hr; simpa using hdb r hr))]
  rw [List.find?_cons_of_pos _ (by
    simp [pubKeyMatches, pubMergeRow, hpid, hprof])]
  cases p1
  cases p2
  simp only [PubRow.mk.injEq] at hpid hprof ⊢
  simp_all [pubMergeRow]

/-- Witness for C8 at two concrete records with the same key. -/
theorem store_publications_later_fetch_witness :
    (store_publications (store_publications []
        [⟨"P1", "T1", none, 3, none, none, none, "Prof", "a1", 10⟩])
        [⟨"P1", "T2", some "abs", 5, some 2024, some "V", some "u", "Prof", "a2", 20⟩]).find?
        (pubKeyMatches "P1" "Prof")
      = some { (⟨"P1", "T2", some "abs", 5, some 2024, some "V", some "u", "Prof", "a2", 20⟩ :
          PubRow) with author_id := "a1" } :=
  store_publications_later_fetch []
    ⟨"P1", "T1", none, 3, none, none, none, "Prof", "a1", 10⟩
    ⟨"P1", "T2", some "abs", 5, some 2024, some "V", some "u", "Prof", "a2", 20⟩
    rfl rfl (by decide) rfl

/-- Counterexample to C8 as stated: after storing p1 then p2 with the
same key and a later fetched_at, the persisted row keeps p1's author_id
rather than carrying p2's. -/
theorem store_publications_author_id_cex :
    ((store_publications (store_publications []
        [⟨"P1", "T1", none, 3, none, none, none, "Prof", "a1", 10⟩])
        [⟨"P1", "T2", none, 5, none, none, none, "Prof", "a2", 20⟩]).find?
        (pubKeyMatches "P1" "Prof")).map (fun r => r.author_id) = some "a1" ∧
    ("a1" : String) ≠ "a2" := by
  constructor <;> decide

theorem store_publications_fresh :
    ∀ (ps : List PubRow) (db : List PubRow),
      (∀ p ∈ ps, db.any (pubKeyMatches p.paper_id p.professor_name) = false) →
      (ps.map pubKey).Nodup →
      store_publications db ps = db ++ ps := by
  intro ps
  induction ps with
  | nil => intro db _ _; simp [store_publications]
  | cons p t ih =>
    intro db hfresh hnodup
    have hstep : store_publications db (p :: t) = store_publications (pubUpsert db p) t := rfl
    have hins : pubUpsert db p = db ++ [p] := by
      rw [pubUpsert, if_neg (by
        rw [hfresh p (List.mem_cons_self p t)]; exact Bool.false_ne_true)]
    rw [List.map_cons, List.nodup_cons] at hnodup
    have hfresh' : ∀ q ∈ t, (db ++ [p]).any (pubKeyMatches q.paper_id q.professor_name)
        = false := by
      intro q hq
      rw [List.any_append, Bool.or_eq_false_iff]
      refine ⟨hfresh q (List.mem_cons_of_mem p hq), ?_⟩
      have hne : pubKey p ≠ pubKey q := fun h =>
        hnodup.1 (h ▸ List.mem_map.mpr ⟨q, hq, rfl⟩)
      simp only [List.any_cons, List.any_nil, Bool.or_false]
      simp only [pubKeyMatches, Bool.and_eq_false_iff]
      by_cases hid : p.paper_id = q.paper_id
      · right
        rw [beq_eq_false_iff_ne]
        intro hpr
        exact hne (by simp [pubKey, hid, hpr, Prod.ext_iff])
      · left
        rw [beq_eq_false_iff_ne]
        exact hid
    rw [hstep, hins, ih (db ++ [p]) hfresh' hnodup.2, List.append_assoc, List.singleton_append]

/-- C9: publications round trip.  Storing a list of publications for one
professor (one record per natural key) into an empty table and reading
them back by that professor's name returns exactly the stored records —
a permutation of the input — sorted by citation count descending.  The
relative order of equal citation counts is not fixed by the SQL ORDER
BY, so the theorem asserts exactly permutation plus sortedness. -/
theorem get_publications_round_trip :
    ∀ (professor_name : String) (ps : List PubRow),
      (∀ p ∈ ps, p.professor_name = professor_name) →
      (ps.map pubKey).Nodup →
      (get_publications_for_professor (store_publications [] ps) professor_name).Perm ps ∧
      (get_publications_for_professor (store_publications [] ps) professor_name).Sorted
        citationGe := by
  intro prof ps hprof hnodup
  have hstore : store_publications [] ps = ps := by
    rw [store_publications_fresh ps [] (fun p _ => rfl) hnodup, List.nil_append]
  have hfilter : ps.filter (fun r => r.professor_name == prof) = ps :=
    List.filter_eq_self.mpr fun a ha => beq_iff_eq.mpr (hprof a ha)
  rw [get_publications_for_professor, hstore, hfilter]
  exact ⟨List.perm_insertionSort citationGe ps, List.sorted_insertionSort citationGe ps⟩

/-- Witness for C9 at a concrete two-element store. -/
theorem get_publications_round_trip_witness :
    (get_publications_for_professor (store_publications []
        [⟨"P1", "T1", none, 3, none, none, none, "Prof", "a1", 10⟩,
         ⟨"P2", "T2", none, 5, none, none, none, "Prof", "a2", 11⟩]) "Prof").Perm
      [⟨"P1", "T1", none, 3, none, none, none, "Prof", "a1", 10⟩,
       ⟨"P2", "T2", none, 5, none, none, none, "Prof", "a2", 11⟩] ∧
    (get_publications_for_professor (store_publications []
        [⟨"P1", "T1", none, 3, none, none, none, "Prof", "a1", 10⟩,
         ⟨"P2", "T2", none, 5, none, none, none, "Prof", "a2", 11⟩]) "Prof").Sorted
      citationGe :=
  get_publications_round_trip "Prof"
    [⟨"P1", "T1", none, 3, none, none, none, "Prof", "a1", 10⟩,
     ⟨"P2", "T2", none, 5, none, none, none, "Prof", "a2", 11⟩]
    (by decide) (by decide)

theorem dedupStep_cases (st : ParseState) (cand : Option FacultyCandidate) :
    dedupStep st cand = st ∨
    ∃ c u, cand = some c ∧ c.profile_url = some u ∧ u ∉ st.seen ∧
      dedupStep st cand = ⟨u :: st.seen, st.out ++ [c]⟩ := by
  cases cand with
  | none => exact Or.inl rfl
  | some c =>
    cases hurl : c.profile_url with
    | none => exact Or.inl (by simp [dedupStep, hurl])
    | some u =>
      by_cases hu : u ∈ st.seen
      · exact Or.inl (by simp [dedupStep, hurl, hu])
      · exact Or.inr ⟨c, u, rfl, hurl, hu, by simp [dedupStep, hurl, hu]⟩

theorem foldDedup_out_extends {α : Type} (g : α → Option FacultyCandidate) :
    ∀ (l : List α) (st : ParseState),
      ∃ tail, (l.foldl (fun st x => dedupStep st (g x)) st).out = st.out ++ tail ∧
        ∀ c ∈ tail, ∃ u, c.profile_url = some u ∧ u ∉ st.seen := by
  intro l
  induction l with
  | nil => intro st; exact ⟨[], by simp, by simp⟩
  | cons x xs ih =>
    intro st
    rcases dedupStep_cases st (g x) with heq | ⟨c, u, _, hurl, hu, heq⟩
    · rw [List.foldl_cons, heq]; exact ih st
    · rw [List.foldl_cons, heq]
      obtain ⟨tail, hout, htail⟩ := ih ⟨u :: st.seen, st.out ++ [c]⟩
      refine ⟨c :: tail, by rw [hout]; simp, ?_⟩
      intro c' hc'
      rcases List.mem_cons.mp hc' with rfl | hct
      · exact ⟨u, hurl, hu⟩
      · obtain ⟨u', hu'1, hu'2⟩ := htail c' hct
        exact ⟨u', hu'1, fun hmem => hu'2 (List.mem_cons_of_mem u hmem)⟩

theorem foldDedup_inv {α : Type} (g : α → Option FacultyCandidate) (base_url : String)
    (hg : ∀ x c, g x = some c → urlShaped base_url c) :
    ∀ (l : List α) (st : ParseState), parseInv base_url st →
      parseInv base_url (l.foldl (fun st x => dedupStep st (g x)) st) := by
  intro l
  induction l with
  | nil => intro st h; exact h
  | cons x xs ih =>
    intro st h
    rcases dedupStep_cases st (g x) with heq | ⟨c, u, hgx, hurl, hu, heq⟩
    · rw [List.foldl_cons, heq]; exact ih st h
    · rw [List.foldl_cons, heq]
      refine ih _ ⟨?_, ?_⟩
      · intro c' hc'
        rcases List.mem_append.mp hc' with hc' | hc'
        · obtain ⟨u', h1, h2, h3⟩ := h.1 c' hc'
          exact ⟨u', h1, List.mem_cons_of_mem u h2, h3⟩
        · rw [List.mem_singleton] at hc'
          subst hc'
          obtain ⟨u'', hu''1, hu''2⟩ := hg x c' hgx
          have huu : u'' = u := by
            rw [hurl] at hu''1
            exact (Option.some.inj hu''1).symm
          exact ⟨u, hurl, List.mem_cons_self u _, huu ▸ hu''2⟩
      · rw [List.map_append, List.nodup_append]
        refine ⟨h.2, by simp, ?_⟩
        intro a ha hb
        rw [List.map_singleton, List.mem_singleton] at hb
        subst hb
        obtain ⟨c', hc', hc'eq⟩ := List.mem_map.mp ha
        obtain ⟨u', h1, h2, _⟩ := h.1 c' hc'
        rw [h1, hurl] at hc'eq
        exact hu ((Option.some.inj hc'eq) ▸ h2)

theorem foldDedup_filter_frozen {α : Type} (g : α → Option FacultyCandidate) (u : String) :
    ∀ (l : List α) (st : ParseState), u ∈ st.seen →
      ((l.foldl (fun st x => dedupStep st (g x)) st).out).filter
          (fun r => r.profile_url == some u)
        = st.out.filter (fun r => r.profile_url == some u) := by
  intro l
  induction l with
  | nil => intro st _; rfl
  | cons x xs ih =>
    intro st hu
    rcases dedupStep_cases st (g x) with heq | ⟨c, u', _, hurl, hu', heq⟩
    · rw [List.foldl_cons, heq]; exact ih st hu
    · rw [List.foldl_cons, heq, ih ⟨u' :: st.seen, st.out ++ [c]⟩ (List.mem_cons_of_mem u' hu)]
      have hne : (c.profile_url == some u) = false := by
        rw [beq_eq_false_iff_ne, hurl]
        intro hcontra
        exact hu' ((Option.some.inj hcontra) ▸ hu)
      rw [List.filter_append,
        show List.filter (fun r => r.profile_url == some u) [c] = [] by
          simp only [List.filter, hne],
        List.append_nil]

theorem filter_single_of_nodup :
    ∀ (l : List FacultyCandidate) (c : FacultyCandidate) (u : String),
      (l.map (fun c => c.profile_url)).Nodup → c ∈ l → c.profile_url = some u →
      l.filter (fun r => r.profile_url == some u) = [c] := by
  intro l
  induction l with
  | nil => intro c u _ hc; exact absurd hc (List.not_mem_nil c)
  | cons a t ih =>
    intro c u hn hc hu
    rw [List.map_cons, List.nodup_cons] at hn
    rcases List.mem_cons.mp hc with rfl | hct
    · rw [List.filter_cons_of_pos (by rw [hu]; exact beq_self_eq_true (some u))]
      rw [List.filter_eq_nil_iff.mpr ?_]
      intro r hr hcontra
      have : c.profile_url ∈ t.map (fun c => c.profile_url) := by
        rw [hu]
        exact List.mem_map.mpr ⟨r, hr, beq_iff_eq.mp hcontra⟩
      exact hn.1 this
    · have hne : (a.profile_url == some u) = false := by
        rw [beq_eq_false_iff_ne]
        intro hau
        exact hn.1 (hau ▸ hu ▸ List.mem_map.mpr ⟨c, hct, rfl⟩)
      rw [List.filter_cons_of_neg (by rw [hne]; exact Bool.false_ne_true)]
      exact ih c u hn.2 hct hu

theorem strategy1Candidate_shaped (base_url : String) (row : CardRow)
    (c : FacultyCandidate) (h : strategy1Candidate base_url row = some c) :
    urlShaped base_url c := by
  unfold strategy1Candidate at h
  rcases row with ⟨nameDiv, emailDiv, deptText⟩
  rcases nameDiv with _ | ⟨divText, nameLink⟩
  · simp at h
  · simp only at h
    split at h
    · exact absurd h (by simp)
    · rcases nameLink with _ | l
      · simp at h
      · simp only at h
        rcases hl : l.href with _ | href
        · rw [hl] at h; simp at h
        · rw [hl] at h
          simp only at h
          split at h
          · exact absurd h (by simp)
          · rw [Option.some.injEq] at h
            subst h
            refine ⟨if strStartsWith href "http" then href else base_url ++ href, rfl, ?_⟩
            by_cases hs : strStartsWith href "http" = true
            · rw [if_pos hs]; exact Or.inl hs
            · rw [if_neg hs]; exact Or.inr ⟨href, rfl⟩

theorem strategy2Candidate_shaped (base_url : String) (link : ProfileLink)
    (c : FacultyCandidate) (h : strategy2Candidate base_url link = some c) :
    urlShaped base_url c := by
  unfold strategy2Candidate at h
  split at h
  · exact absurd h (by simp)
  split at h
  · exact absurd h (by simp)
  split at h
  · exact absurd h (by simp)
  rw [Option.some.injEq] at h
  subst h
  refine ⟨if strStartsWith link.href "http" = true then link.href else base_url ++ link.href,
    rfl, ?_⟩
  by_cases hs : strStartsWith link.href "http" = true
  · rw [if_pos hs]; exact Or.inl hs
  · rw [if_neg hs]; exact Or.inr ⟨link.href, rfl⟩

/-- C10: parser output invariant.  Every candidate `parse_faculty_generic`
returns carries a non-null profile URL, which is either taken verbatim
from an href already starting with http or joined onto the base URL, and
the profile URLs of one call are pairwise distinct (cards without an
href, and links failing the guards, are dropped, never emitted with a
null URL). -/
theorem parse_faculty_generic_profile_urls :
    ∀ (doc : Document) (base_url : String),
      (∀ c ∈ parse_faculty_generic doc base_url, ∃ u, c.profile_url = some u ∧
          (strStartsWith u "http" = true ∨ ∃ h, u = base_url ++ h)) ∧
      ((parse_faculty_generic doc base_url).map (fun c => c.profile_url)).Nodup := by
  intro doc base_url
  have hinv1 : parseInv base_url (doc.rows.foldl
      (fun st row => dedupStep st (strategy1Candidate base_url row)) ⟨[], []⟩) :=
    foldDedup_inv _ base_url (fun x c h => strategy1Candidate_shaped base_url x c h) doc.rows
      ⟨[], []⟩ ⟨fun c hc => absurd hc (List.not_mem_nil c), List.nodup_nil⟩
  have hinv2 : parseInv base_url (doc.links.foldl
      (fun st l => dedupStep st (strategy2Candidate base_url l))
      (doc.rows.foldl (fun st row => dedupStep st (strategy1Candidate base_url row))
        ⟨[], []⟩)) :=
    foldDedup_inv _ base_url (fun x c h => strategy2Candidate_shaped base_url x c h) doc.links
      _ hinv1
  exact ⟨fun c hc => (hinv2.1 c hc).imp fun u hu => ⟨hu.1, hu.2.2⟩, hinv2.2⟩

/-- Witness for C10 at a concrete one-card, one-link page. -/
theorem parse_faculty_generic_profile_urls_witness :
    (∃ u, (FacultyCandidate.mk "Alice Smith" (some "CS") none
        (some "https://e.x/people/alice") none).profile_url = some u ∧
      (strStartsWith u "http" = true ∨ ∃ h, u = "https://e.x" ++ h)) ∧
    ((parse_faculty_generic
        ⟨[⟨some ("", some ⟨"Alice Smith", some "/people/alice"⟩), none, some "CS"⟩],
         [⟨"/people/alice", "Alice Smith", none⟩]⟩ "https://e.x").map
      (fun c => c.profile_url)).Nodup :=
  ⟨(parse_faculty_generic_profile_urls
      ⟨[⟨some ("", some ⟨"Alice Smith", some "/people/alice"⟩), none, some "CS"⟩],
       [⟨"/people/alice", "Alice Smith", none⟩]⟩ "https://e.x").1
      ⟨"Alice Smith", some "CS", none, some "https://e.x/people/alice", none⟩ (by decide),
   (parse_faculty_generic_profile_urls
      ⟨[⟨some ("", some ⟨"Alice Smith", some "/people/alice"⟩), none, some "CS"⟩],
       [⟨"/people/alice", "Alice Smith", none⟩]⟩ "https://e.x").2⟩

/-- C3: strategy-order deduplication.  Whenever the structured (card)
strategy emits a candidate for a URL, the full two-strategy parse
contains exactly that one candidate for the URL, with the structured
strategy's field values — a heuristic-strategy record never overwrites
or duplicates it. -/
theorem parse_faculty_generic_structured_wins :
    ∀ (doc : Document) (base_url : String) (c : FacultyCandidate) (u : String),
      c ∈ parse_faculty_generic ⟨doc.rows, []⟩ base_url →
      c.profile_url = some u →
      (parse_faculty_generic doc base_url).filter (fun r => r.profile_url == some u)
        = [c] := by
  intro doc base_url c u hc hu
  have hinv1 : parseInv base_url (doc.rows.foldl
      (fun st row => dedupStep st (strategy1Candidate base_url row)) ⟨[], []⟩) :=
    foldDedup_inv _ base_url (fun x c h => strategy1Candidate_shaped base_url x c h) doc.rows
      ⟨[], []⟩ ⟨fun c hc => absurd hc (List.not_mem_nil c), List.nodup_nil⟩
  have hc1 : c ∈ (doc.rows.foldl
      (fun st row => dedupStep st (strategy1Candidate base_url row)) ⟨[], []⟩).out := hc
  have huseen : u ∈ (doc.rows.foldl
      (fun st row => dedupStep st (strategy1Candidate base_url row)) ⟨[], []⟩).seen := by
    obtain ⟨u', h1, h2, _⟩ := hinv1.1 c hc1
    rw [hu] at h1
    exact (Option.some.inj h1) ▸ h2
  have hfull : parse_faculty_generic doc base_url
      = (doc.links.foldl (fun st l => dedupStep st (strategy2Candidate base_url l))
          (doc.rows.foldl (fun st row => dedupStep st (strategy1Candidate base_url row))
            ⟨[], []⟩)).out := rfl
  rw [hfull, foldDedup_filter_frozen _ u doc.links _ huseen]
  exact filter_single_of_nodup _ c u hinv1.2 hc1 hu

/-- Witness for C3: a card and a heuristic link resolving to the same
URL with different department values; the parse keeps exactly the card's
candidate. -/
theorem parse_faculty_generic_structured_wins_witness :
    (parse_faculty_generic
        ⟨[⟨some ("", some ⟨"Alice Smith", some "/people/alice"⟩), none, some "CS"⟩],
         [⟨"/people/alice", "Alice Smith", none⟩]⟩ "https://e.x").filter
      (fun r => r.profile_url == some "https://e.x/people/alice")
      = [⟨"Alice Smith", some "CS", none, some "https://e.x/people/alice", none⟩] :=
  parse_faculty_generic_structured_wins
    ⟨[⟨some ("", some ⟨"Alice Smith", some "/people/alice"⟩), none, some "CS"⟩],
     [⟨"/people/alice", "Alice Smith", none⟩]⟩ "https://e.x"
    ⟨"Alice Smith", some "CS", none, some "https://e.x/people/alice", none⟩
    "https://e.x/people/alice" (by decide) rfl
